import Mathlib

/-!
Verification of the overthinker-ai intent-classification core
(`overthinker/core/intent_classifier.py`): the `IntentClassifier`
multi-signal scorer and the `ContextExtractor` constraint tagger,
embedded as pure Lean functions over the annotated-text record the
scenario parser produces.
-/

namespace Overthinker

/-- Python's `needle in hay` prefix helper over char lists. -/
def isPrefixCL : List Char → List Char → Bool
  | [], _ => true
  | _ :: _, [] => false
  | a :: as, b :: bs => a == b && isPrefixCL as bs

/-- Scan all suffixes of the haystack for the needle as a prefix. -/
def substrAux (p : List Char) : List Char → Bool
  | [] => isPrefixCL p []
  | c :: cs => isPrefixCL p (c :: cs) || substrAux p cs

/-- Python's substring containment test `needle in hay`. -/
def substr (needle hay : String) : Bool :=
  substrAux needle.data hay.data

/-- Python's `str.lower()` (ASCII case folding, which covers every string
the classifier's keyword tables contain). -/
def lowerStr (s : String) : String := ⟨s.data.map Char.toLower⟩

/-- Insert into a descending-by-key list, before the first element of
strictly smaller key (so earlier-inserted equals stay in front). -/
def insertDescBy {α : Type} (k : α → Nat) (x : α) : List α → List α
  | [] => [x]
  | y :: ys => if k x < k y then y :: insertDescBy k x ys else x :: y :: ys

/-- Python's stable `sorted(..., key=k, reverse=True)`. -/
def sortDescBy {α : Type} (k : α → Nat) : List α → List α
  | [] => []
  | x :: xs => insertDescBy k x (sortDescBy k xs)

/-- One named entity from the annotation provider: surface text plus label. -/
structure Entity where
  text : String
  label : String
deriving DecidableEq

/-- The annotated-text record consumed by the classifier (the fields of
`ScenarioParser.parse` output the core reads: tokens, lemmatized verb
actions, nouns, entities). -/
structure ParsedData where
  tokens : List String
  actions : List String
  nouns : List String
  entities : List Entity
deriving DecidableEq

/-- One category definition from `IntentClassifier.intent_patterns`:
verbs, nouns, phrases, optional entity-label allowlist, optional modifiers. -/
structure IntentPattern where
  verbs : List String
  nouns : List String
  phrases : List String
  locations : Option (List String)
  modifiers : Option (List String)
deriving DecidableEq

/-- The transportation category definition. -/
def transportationPattern : IntentPattern :=
  { verbs := ["go", "travel", "commute", "drive", "ride", "walk", "bike",
              "fly", "reach", "arrive", "move", "head", "navigate", "drop"]
    nouns := ["bus", "car", "train", "taxi", "uber", "ola", "bike", "plane",
              "metro", "auto", "transport", "rickshaw", "scooter", "cab",
              "airport", "station", "office", "work", "rapido", "vehicle",
              "cabs", "commute"]
    phrases := ["get to", "how to reach", "way to", "going to", "travel to",
                "commute to", "best route", "fastest way", "or uber", "vs uber",
                "or ola", "vs ola", "or cab", "vs cab", "vs metro", "or metro",
                "vs bus", "or bus", "take the", "airport drop"]
    locations := some ["GPE", "LOC", "FAC"]
    modifiers := none }

/-- The purchase category definition. -/
def purchasePattern : IntentPattern :=
  { verbs := ["buy", "purchase", "get", "acquire", "order", "shop", "invest",
              "upgrade", "replace", "spend", "repair"]
    nouns := ["phone", "laptop", "product", "item", "gadget", "device",
              "clothes", "watch", "tv", "camera", "headphones", "shoes",
              "iphone", "samsung", "macbook", "airpods"]
    phrases := ["should i buy", "worth buying", "repair or replace",
                "new vs old", "buy or wait", "worth getting", "or repair",
                "new phone", "new laptop", "buy new"]
    locations := none
    modifiers := some ["new", "old", "expensive", "cheap", "affordable"] }

/-- The food category definition. -/
def foodPattern : IntentPattern :=
  { verbs := ["eat", "cook", "order", "dine", "prepare", "make", "bake"]
    nouns := ["food", "restaurant", "meal", "dinner", "lunch", "breakfast",
              "snack", "swiggy", "zomato", "kitchen", "recipe", "delivery"]
    phrases := ["cook or order", "eat out", "home cooked", "order food",
                "dine out", "food delivery", "make food", "cook at home",
                "or order", "or cook", "swiggy delivery", "zomato delivery"]
    locations := none
    modifiers := none }

/-- The career category definition. -/
def careerPattern : IntentPattern :=
  { verbs := ["work", "join", "switch", "apply", "resign", "accept",
              "quit", "leave", "change", "ask"]
    nouns := ["job", "career", "company", "offer", "salary", "position",
              "role", "promotion", "boss", "workplace", "office", "raise",
              "hike"]
    phrases := ["job offer", "change job", "new job", "career move",
                "switch companies", "leave job", "job switch", "ask for raise",
                "look elsewhere", "remote position"]
    locations := none
    modifiers := none }

/-- The health category definition. -/
def healthPattern : IntentPattern :=
  { verbs := ["exercise", "sleep", "rest", "workout", "diet", "run", "jog",
              "see", "join"]
    nouns := ["health", "gym", "doctor", "medicine", "fitness", "sleep",
              "hospital", "clinic", "workout", "yoga", "specialist",
              "physician", "checkup"]
    phrases := ["see a doctor", "go to gym", "health concern", "feel sick",
                "start exercising", "workout routine", "join gym", "at home",
                "or gym", "yoga class", "health checkup", "see specialist"]
    locations := none
    modifiers := none }

/-- The relationship category definition. -/
def relationshipPattern : IntentPattern :=
  { verbs := ["date", "marry", "propose", "breakup", "meet", "talk",
              "ask", "apologize"]
    nouns := ["relationship", "girlfriend", "boyfriend", "partner", "friend",
              "family", "marriage", "date", "her", "him"]
    phrases := ["ask out", "break up", "get married", "in love", "ask her",
                "ask him", "apologize first", "should i ask"]
    locations := none
    modifiers := none }

/-- `IntentClassifier.intent_patterns` in its Python insertion order. -/
def intentPatterns : List (String × IntentPattern) :=
  [("transportation", transportationPattern),
   ("purchase", purchasePattern),
   ("food", foodPattern),
   ("career", careerPattern),
   ("health", healthPattern),
   ("relationship", relationshipPattern)]

/-- The per-category scoring loop body of `classify_intent`: the six
weighted signals accumulated exactly as the source iterates them. -/
def classifyScore (p : IntentPattern) (text : String) (d : ParsedData) : Nat :=
  let textLower := lowerStr text
  let tokensLower := d.tokens.map lowerStr
  let s1 := d.actions.foldl (fun s a => if p.verbs.contains (lowerStr a) then s + 4 else s) 0
  let s2 := d.nouns.foldl (fun s n => if p.nouns.contains (lowerStr n) then s + 3 else s) s1
  let sortedPhrases := sortDescBy String.length p.phrases
  let s3 := match sortedPhrases.find? (fun ph => substr ph textLower) with
            | some _ => s2 + 6
            | none => s2
  let s4 := d.entities.foldl (fun s e =>
      let s' := if p.nouns.contains (lowerStr e.text) then s + 3 else s
      match p.locations with
      | some locs => if locs.contains e.label then s' + 3 else s'
      | none => s') s3
  let s5 := match p.modifiers with
            | some mods => mods.foldl (fun s m => if substr m textLower then s + 2 else s) s4
            | none => s4
  p.nouns.foldl (fun s n => if substr n textLower && !(tokensLower.contains n) then s + 2 else s) s5

/-- Python's `max(iterable, key=...)` over (name, score) pairs seeded with the
first element: later elements replace the best only on strictly greater score,
so the first of several tied maxima wins. -/
def argmaxFirst (x : String × Nat) (xs : List (String × Nat)) : String × Nat :=
  xs.foldl (fun best y => if best.2 < y.2 then y else best) x

/-- Maximum of a list of scores (0 on the empty list). -/
def maxNat (l : List Nat) : Nat := l.foldl max 0

/-- The confidence formula at the end of `classify_intent`, over the winning
score and the second entry of the descending-sorted score list. -/
def confidenceFrom (maxScore secondScore : Nat) : ℚ :=
  let confidence : ℚ :=
    if secondScore = 0 then min ((maxScore : ℚ) / 12) 1
    else min ((maxScore : ℚ) / 12 + ((maxScore : ℚ) - (secondScore : ℚ)) / 20) 1
  if 15 ≤ maxScore then min (confidence * (6 / 5)) 1 else confidence

/-- `IntentClassifier.classify_intent`, generic in the category table:
score every category, fall back to ("general", 0.3) when nothing scored,
otherwise pick the first-tied argmax and calibrate confidence from the
gap to the second-highest sorted score. -/
def classifyIntentWith (cats : List (String × IntentPattern)) (text : String)
    (d : ParsedData) : String × ℚ :=
  let scores := cats.map (fun c => (c.1, classifyScore c.2 text d))
  match scores with
  | [] => ("general", 3 / 10)
  | x :: xs =>
    if maxNat (scores.map Prod.snd) = 0 then ("general", 3 / 10)
    else
      let best := argmaxFirst x xs
      let sortedScores := sortDescBy (fun v => v) (scores.map Prod.snd)
      let secondScore := match sortedScores with
                         | _ :: s :: _ => s
                         | _ => 0
      (best.1, confidenceFrom best.2 secondScore)

/-- `classify_intent` with the six concrete category definitions. -/
def classifyIntent (text : String) (d : ParsedData) : String × ℚ :=
  classifyIntentWith intentPatterns text d

/-- The (name, score) list `classify_intent` builds internally. -/
def scoresOf (text : String) (d : ParsedData) : List (String × Nat) :=
  intentPatterns.map (fun c => (c.1, classifyScore c.2 text d))

/-- `ContextExtractor` keyword family for time sensitivity. -/
def timeKeywordList : List String :=
  ["urgent", "quick", "fast", "asap", "immediately",
   "hurry", "rush", "quickly", "soon", "right now"]

/-- `ContextExtractor` keyword family for budget consciousness. -/
def budgetKeywordList : List String :=
  ["cheap", "affordable", "budget", "save money",
   "economical", "inexpensive", "low cost", "under"]

/-- `ContextExtractor` keyword family for quality focus. -/
def qualityKeywordList : List String :=
  ["best", "quality", "premium", "reliable", "durable",
   "long-term", "high quality", "top rated", "excellent"]

/-- `ContextExtractor` keyword family for convenience. -/
def convenienceKeywordList : List String :=
  ["easy", "convenient", "simple", "hassle free",
   "comfortable", "effortless"]

/-- `ContextExtractor.constraint_keywords` in its Python insertion order. -/
def constraintKeywords : List (String × List String) :=
  [("time_sensitive", timeKeywordList),
   ("budget_conscious", budgetKeywordList),
   ("quality_focused", qualityKeywordList),
   ("convenience", convenienceKeywordList)]

/-- The dict `extract_constraints` returns.  `time_constraint` models the
key the source adds only when a TIME/DATE entity exists; `none` stands for
the absent key. -/
structure ConstraintSet where
  time_sensitive : Bool
  budget_conscious : Bool
  quality_focused : Bool
  convenience_focused : Bool
  urgency_level : String
  budget_amount : Option String
  primary_concern : Option String
  time_constraint : Option String
deriving DecidableEq

/-- The defaults `extract_constraints` initializes before scanning. -/
def initialConstraints : ConstraintSet :=
  { time_sensitive := false
    budget_conscious := false
    quality_focused := false
    convenience_focused := false
    urgency_level := "normal"
    budget_amount := none
    primary_concern := none
    time_constraint := none }

/-- The if/elif chain in `extract_constraints` that flips the boolean flag
keyed by a triggered family's name (time sensitivity also forces the high
urgency level). -/
def applyFlag (c : ConstraintSet) (name : String) : ConstraintSet :=
  if name = "time_sensitive" then
    { c with time_sensitive := true, urgency_level := "high" }
  else if name = "budget_conscious" then { c with budget_conscious := true }
  else if name = "quality_focused" then { c with quality_focused := true }
  else if name = "convenience" then { c with convenience_focused := true }
  else c

/-- Record the primary concern: Python's `max(concern_scores, key=...)`
over the triggered-family list, left alone when nothing triggered. -/
def setPrimary (c : ConstraintSet) (cs : List (String × Nat)) : ConstraintSet :=
  match cs with
  | [] => c
  | x :: xs => { c with primary_concern := some (argmaxFirst x xs).1 }

/-- Record the first MONEY entity's surface text, if any. -/
def setBudget (c : ConstraintSet) (es : List Entity) : ConstraintSet :=
  match es with
  | e :: _ => { c with budget_amount := some e.text }
  | [] => c

/-- Record the first TIME/DATE entity's surface text, if any. -/
def setTimeC (c : ConstraintSet) (es : List Entity) : ConstraintSet :=
  match es with
  | e :: _ => { c with time_constraint := some e.text }
  | [] => c

/-- One step of the constraint-family loop: count keyword substring hits,
and on a positive count flip the flag and append the family's score. -/
def constraintStep (textLower : String) (acc : ConstraintSet × List (String × Nat))
    (fam : String × List String) : ConstraintSet × List (String × Nat) :=
  let score := fam.2.countP (fun k => substr k textLower)
  if 0 < score then (applyFlag acc.1 fam.1, acc.2 ++ [(fam.1, score)])
  else acc

/-- `ContextExtractor.extract_constraints`: the keyword-family scan followed
by primary-concern selection and first-MONEY / first-TIME-or-DATE entity
extraction. -/
def extractConstraints (d : ParsedData) (text : String) : ConstraintSet :=
  let textLower := lowerStr text
  let res := constraintKeywords.foldl (constraintStep textLower)
    (initialConstraints, [])
  let c := setPrimary res.1 res.2
  let c := setBudget c (d.entities.filter (fun e => e.label == "MONEY"))
  setTimeC c (d.entities.filter (fun e => e.label == "TIME" || e.label == "DATE"))

section SpecSide

/-- Spec-side: a category earns its phrase bonus when some phrase of the
category occurs as a substring of the lowercased text. -/
def phraseHit (phrases : List String) (textLower : String) : Bool :=
  phrases.any (fun ph => substr ph textLower)

/-- Spec-side restatement of the per-category score as the sum of the six
weighted signals named by the specification. -/
def specScore (p : IntentPattern) (text : String) (d : ParsedData) : Nat :=
  let textLower := lowerStr text
  let tokensLower := d.tokens.map lowerStr
  4 * d.actions.countP (fun a => p.verbs.contains (lowerStr a))
  + 3 * d.nouns.countP (fun n => p.nouns.contains (lowerStr n))
  + (if phraseHit p.phrases textLower then 6 else 0)
  + 3 * d.entities.countP (fun e => p.nouns.contains (lowerStr e.text))
  + (match p.locations with
     | some locs => 3 * d.entities.countP (fun e => locs.contains e.label)
     | none => 0)
  + (match p.modifiers with
     | some mods => 2 * mods.countP (fun m => substr m textLower)
     | none => 0)
  + 2 * p.nouns.countP (fun n => substr n textLower && !(tokensLower.contains n))

/-- Spec-side confidence calibration, written from the specification's
three bullet rules. -/
def specConfidence (m s : Nat) : ℚ :=
  let base : ℚ :=
    if s = 0 then min ((m : ℚ) / 12) 1
    else min ((m : ℚ) / 12 + ((m : ℚ) - (s : ℚ)) / 20) 1
  if 15 ≤ m then min (base * (6 / 5)) 1 else base

/-- Spec-side second-highest score: the maximum after deleting one
occurrence of the maximum. -/
def secondBest (l : List Nat) : Nat := maxNat (l.erase (maxNat l))

/-- Spec-side triggered-family list: each constraint family paired with its
keyword-hit count, restricted to positive counts, in definition order. -/
def concernScores (text : String) : List (String × Nat) :=
  (constraintKeywords.map
      (fun f => (f.1, f.2.countP (fun k => substr k (lowerStr text))))).filter
    (fun z => 0 < z.2)

end SpecSide

/-! ### Fold decomposition lemmas -/

lemma foldl_if_add {α : Type} (f : α → Bool) (k : Nat) :
    ∀ (l : List α) (n : Nat),
      l.foldl (fun s a => if f a then s + k else s) n = n + k * l.countP f
  | [], n => by simp
  | a :: l, n => by
    cases h : f a <;>
      simp [List.countP_cons, h, foldl_if_add f k l] <;> ring

lemma foldl_if2_add {α : Type} (f g : α → Bool) (j k : Nat) :
    ∀ (l : List α) (n : Nat),
      l.foldl (fun s a =>
        if g a then (if f a then s + j else s) + k else (if f a then s + j else s)) n
      = n + j * l.countP f + k * l.countP g
  | [], n => by simp
  | a :: l, n => by
    cases hf : f a <;> cases hg : g a <;>
      simp [List.countP_cons, hf, hg, foldl_if2_add f g j k l] <;> ring

/-! ### Descending stable sort lemmas -/

lemma insertDescBy_perm {α : Type} (k : α → Nat) (x : α) :
    ∀ l : List α, (insertDescBy k x l).Perm (x :: l)
  | [] => List.Perm.refl _
  | y :: ys => by
    unfold insertDescBy
    split
    · exact ((insertDescBy_perm k x ys).cons y).trans (List.Perm.swap x y ys)
    · exact List.Perm.refl _

lemma sortDescBy_perm {α : Type} (k : α → Nat) :
    ∀ l : List α, (sortDescBy k l).Perm l
  | [] => List.Perm.refl _
  | x :: xs => (insertDescBy_perm k x _).trans ((sortDescBy_perm k xs).cons x)

lemma insertDescBy_pairwise {α : Type} (k : α → Nat) (x : α) :
    ∀ {l : List α}, l.Pairwise (fun a b => k b ≤ k a) →
      (insertDescBy k x l).Pairwise (fun a b => k b ≤ k a)
  | [], _ => by simp [insertDescBy]
  | y :: ys, h => by
    obtain ⟨hy, hys⟩ := List.pairwise_cons.mp h
    unfold insertDescBy
    split
    · rename_i hxy
      refine List.pairwise_cons.mpr ⟨?_, insertDescBy_pairwise k x hys⟩
      intro z hz
      rcases List.mem_cons.mp ((insertDescBy_perm k x ys).mem_iff.mp hz) with hz' | hz'
      · subst hz'
        omega
      · exact hy z hz'
    · rename_i hxy
      refine List.pairwise_cons.mpr ⟨?_, h⟩
      intro z hz
      rcases List.mem_cons.mp hz with hz' | hz'
      · subst hz'
        omega
      · have := hy z hz'
        omega

lemma sortDescBy_pairwise {α : Type} (k : α → Nat) :
    ∀ l : List α, (sortDescBy k l).Pairwise (fun a b => k b ≤ k a)
  | [] => List.Pairwise.nil
  | x :: xs => insertDescBy_pairwise k x (sortDescBy_pairwise k xs)

lemma sortDesc_pairwise (l : List Nat) :
    (sortDescBy (fun v => v) l).Pairwise (fun a b => b ≤ a) :=
  sortDescBy_pairwise (fun v => v) l

lemma phrase_match_bonus (phrases : List String) (t : String) (n : Nat) :
    (match (sortDescBy String.length phrases).find?
        (fun ph => substr ph t) with
     | some _ => n + 6
     | none => n) = n + (if phraseHit phrases t then 6 else 0) := by
  have hperm := sortDescBy_perm String.length phrases
  cases h : (sortDescBy String.length phrases).find?
      (fun ph => substr ph t) with
  | some x =>
    have hx := List.find?_some h
    have hmem : x ∈ phrases := hperm.mem_iff.mp (List.mem_of_find?_eq_some h)
    have hhit : phraseHit phrases t = true :=
      List.any_eq_true.mpr ⟨x, hmem, hx⟩
    simp [hhit]
  | none =>
    have hhit : phraseHit phrases t = false := by
      rw [phraseHit, List.any_eq_false]
      intro x hx
      exact List.find?_eq_none.mp h x (hperm.mem_iff.mpr hx)
    simp [hhit]

/-- The accumulated per-category score of the source loop equals the
specification's sum of six weighted signals. -/
lemma classifyScore_eq_specScore (p : IntentPattern) (text : String)
    (d : ParsedData) : classifyScore p text d = specScore p text d := by
  obtain ⟨vs, ns, phs, locs, mods⟩ := p
  cases locs <;> cases mods <;>
    · simp only [classifyScore, specScore]
      simp only [foldl_if2_add, foldl_if_add, phrase_match_bonus]
      cases hph : phraseHit phs (lowerStr text) <;> simp [hph] <;> ring

/-! ### Maximum and argmax lemmas -/

lemma le_foldl_max_seed : ∀ (l : List Nat) (n : Nat), n ≤ l.foldl max n
  | [], _ => le_refl _
  | a :: l, n => le_trans (le_max_left n a) (le_foldl_max_seed l (max n a))

lemma le_foldl_max_mem : ∀ (l : List Nat) (n v : Nat), v ∈ l → v ≤ l.foldl max n
  | a :: l, n, v, hv => by
    rcases List.mem_cons.mp hv with h | h
    · subst h
      exact le_trans (le_max_right n v) (le_foldl_max_seed l (max n v))
    · exact le_foldl_max_mem l (max n a) v h

lemma foldl_max_le : ∀ (l : List Nat) (n m : Nat),
    n ≤ m → (∀ v ∈ l, v ≤ m) → l.foldl max n ≤ m
  | [], _, _, hn, _ => hn
  | a :: l, n, m, hn, hl =>
    foldl_max_le l (max n a) m (max_le hn (hl a (List.mem_cons_self a l)))
      (fun v hv => hl v (List.mem_cons_of_mem a hv))

lemma foldl_max_choice : ∀ (l : List Nat) (n : Nat),
    l.foldl max n = n ∨ l.foldl max n ∈ l
  | [], n => Or.inl rfl
  | a :: l, n => by
    rcases foldl_max_choice l (max n a) with h | h
    · rcases max_choice n a with hm | hm
      · exact Or.inl (by rw [List.foldl_cons, h, hm])
      · exact Or.inr (by rw [List.foldl_cons, h, hm]; exact List.mem_cons_self a l)
    · exact Or.inr (List.mem_cons_of_mem a h)

lemma le_maxNat {l : List Nat} {v : Nat} (h : v ∈ l) : v ≤ maxNat l :=
  le_foldl_max_mem l 0 v h

lemma maxNat_le {l : List Nat} {m : Nat} (h : ∀ v ∈ l, v ≤ m) : maxNat l ≤ m :=
  foldl_max_le l 0 m (Nat.zero_le m) h

lemma maxNat_perm {l l' : List Nat} (h : l.Perm l') : maxNat l = maxNat l' :=
  le_antisymm (maxNat_le fun v hv => le_maxNat (h.mem_iff.mp hv))
    (maxNat_le fun v hv => le_maxNat (h.mem_iff.mpr hv))

lemma maxNat_eq_of_mem_of_le {l : List Nat} {a : Nat} (ha : a ∈ l)
    (hall : ∀ v ∈ l, v ≤ a) : maxNat l = a :=
  le_antisymm (maxNat_le hall) (le_maxNat ha)

lemma maxNat_cons (v : Nat) (l : List Nat) : maxNat (v :: l) = l.foldl max v := by
  simp [maxNat, List.foldl_cons, Nat.zero_max]

lemma maxNat_erase_le (l : List Nat) (a : Nat) : maxNat (l.erase a) ≤ maxNat l :=
  maxNat_le fun v hv => le_maxNat (List.erase_subset a l hv)

lemma argmaxFirst_eq_foldl (x : String × Nat) (xs : List (String × Nat)) :
    argmaxFirst x xs = xs.foldl (fun best y => if best.2 < y.2 then y else best) x :=
  rfl

lemma argmaxFirst_snd : ∀ (xs : List (String × Nat)) (x : String × Nat),
    (argmaxFirst x xs).2 = (xs.map Prod.snd).foldl max x.2
  | [], x => rfl
  | y :: ys, x => by
    have step : argmaxFirst x (y :: ys) = argmaxFirst (if x.2 < y.2 then y else x) ys := rfl
    rw [step, argmaxFirst_snd ys]
    have hseed : (if x.2 < y.2 then y else x).2 = max x.2 y.2 := by
      split <;> omega
    rw [hseed, List.map_cons, List.foldl_cons]

lemma seed_le_argmaxFirst (x : String × Nat) (xs : List (String × Nat)) :
    x.2 ≤ (argmaxFirst x xs).2 := by
  rw [argmaxFirst_snd]
  exact le_foldl_max_seed _ _

lemma mem_le_argmaxFirst {xs : List (String × Nat)} {z : String × Nat}
    (x : String × Nat) (h : z ∈ xs) : z.2 ≤ (argmaxFirst x xs).2 := by
  rw [argmaxFirst_snd]
  exact le_foldl_max_mem _ _ _ (List.mem_map_of_mem Prod.snd h)

lemma argmaxFirst_eq_seed_of_all_le : ∀ (xs : List (String × Nat)) (x : String × Nat),
    (∀ z ∈ xs, z.2 ≤ x.2) → argmaxFirst x xs = x
  | [], x, _ => rfl
  | y :: ys, x, h => by
    have hy : y.2 ≤ x.2 := h y (List.mem_cons_self y ys)
    have step : argmaxFirst x (y :: ys) = argmaxFirst (if x.2 < y.2 then y else x) ys := rfl
    rw [step, if_neg (by omega)]
    exact argmaxFirst_eq_seed_of_all_le ys x
      (fun z hz => h z (List.mem_cons_of_mem y hz))

lemma argmaxFirst_snd_maxNat (x : String × Nat) (xs : List (String × Nat)) :
    (argmaxFirst x xs).2 = maxNat ((x :: xs).map Prod.snd) := by
  rw [argmaxFirst_snd, List.map_cons, maxNat_cons]

/-- Python's strict-greater `max(..., key=...)` returns the first element
achieving the maximal score: `find?` over the same list with the maximal
score as target finds exactly the argmax. -/
lemma find?_argmaxFirst : ∀ (xs : List (String × Nat)) (x : String × Nat),
    (x :: xs).find? (fun z => z.2 == (argmaxFirst x xs).2) = some (argmaxFirst x xs)
  | [], x => by simp [argmaxFirst, List.find?]
  | y :: ys, x => by
    have step : argmaxFirst x (y :: ys) = argmaxFirst (if x.2 < y.2 then y else x) ys := rfl
    by_cases hxy : x.2 < y.2
    · have hx' : argmaxFirst x (y :: ys) = argmaxFirst y ys := by rw [step, if_pos hxy]
      have hxlt : x.2 < (argmaxFirst y ys).2 :=
        lt_of_lt_of_le hxy (seed_le_argmaxFirst y ys)
      rw [hx', List.find?_cons_of_neg _ (by simp only [beq_iff_eq]; omega)]
      exact find?_argmaxFirst ys y
    · have hx' : argmaxFirst x (y :: ys) = argmaxFirst x ys := by rw [step, if_neg hxy]
      have ih := find?_argmaxFirst ys x
      by_cases hpx : x.2 = (argmaxFirst x ys).2
      · have hfx : argmaxFirst x ys = x := by
          apply argmaxFirst_eq_seed_of_all_le
          intro z hz
          have := le_foldl_max_mem (ys.map Prod.snd) x.2 z.2
            (List.mem_map_of_mem Prod.snd hz)
          rw [argmaxFirst_snd] at hpx
          omega
        rw [hx', List.find?_cons_of_pos _ (by simp [hfx]), hfx]
      · have hle : x.2 ≤ (argmaxFirst x ys).2 := seed_le_argmaxFirst x ys
        have hylt : y.2 ≤ x.2 := by omega
        rw [hx', List.find?_cons_of_neg _ (by simp only [beq_iff_eq]; omega),
          List.find?_cons_of_neg _ (by simp only [beq_iff_eq]; omega)]
        rw [List.find?_cons_of_neg _ (by simp only [beq_iff_eq]; omega)] at ih
        exact ih

/-! ### Descending sort of the score list -/

lemma sortDesc_cons_max {l : List Nat} {a : Nat} {t : List Nat}
    (h : sortDescBy (fun v => v) l = a :: t) :
    maxNat l = a ∧ t.Perm (l.erase a) := by
  have hperm := sortDescBy_perm (fun v => v) l
  rw [h] at hperm
  have hpw := sortDesc_pairwise l
  rw [h] at hpw
  have htle : ∀ v ∈ t, v ≤ a := (List.pairwise_cons.mp hpw).1
  have hmax : maxNat l = a := by
    apply maxNat_eq_of_mem_of_le
    · exact hperm.mem_iff.mp (List.mem_cons_self a t)
    · intro v hv
      rcases List.mem_cons.mp (hperm.mem_iff.mpr hv) with hv' | hv'
      · omega
      · exact htle v hv'
  refine ⟨hmax, ?_⟩
  have h2 := hperm.symm.erase a
  rw [List.erase_cons_head] at h2
  exact h2.symm

/-- The second entry of the descending-sorted score list is the maximum of
the scores after deleting one occurrence of the maximum. -/
lemma sortDesc_second {l : List Nat} {a b : Nat} {r : List Nat}
    (h : sortDescBy (fun v => v) l = a :: b :: r) :
    secondBest l = b := by
  obtain ⟨hmax, hperm⟩ := sortDesc_cons_max h
  have hpw := sortDesc_pairwise l
  rw [h] at hpw
  have hrle : ∀ v ∈ r, v ≤ b := (List.pairwise_cons.mp (List.pairwise_cons.mp hpw).2).1
  have : maxNat (l.erase a) = b := by
    rw [← maxNat_perm hperm]
    apply maxNat_eq_of_mem_of_le (List.mem_cons_self b r)
    intro v hv
    rcases List.mem_cons.mp hv with hv' | hv'
    · omega
    · exact hrle v hv'
  rw [secondBest, hmax, this]

lemma sortDesc_singleton {l : List Nat} {a : Nat}
    (h : sortDescBy (fun v => v) l = [a]) : secondBest l = 0 := by
  have hperm := sortDescBy_perm (fun v => v) l
  rw [h] at hperm
  have hl : l = [a] := List.perm_singleton.mp hperm.symm
  subst hl
  simp [secondBest, maxNat]

lemma sortDesc_nil {l : List Nat}
    (h : sortDescBy (fun v => v) l = []) : l = [] := by
  have hperm := sortDescBy_perm (fun v => v) l
  rw [h] at hperm
  exact hperm.symm.eq_nil

/-! ### Characterization of classify_intent -/

/-- When every score is 0 (in particular when the category table is empty),
`classify_intent` returns the fallback ("general", 0.3). -/
lemma classifyIntentWith_max_zero {cats : List (String × IntentPattern)}
    {text : String} {d : ParsedData}
    (h : maxNat ((cats.map (fun c => (c.1, classifyScore c.2 text d))).map Prod.snd) = 0) :
    classifyIntentWith cats text d = ("general", 3 / 10) := by
  unfold classifyIntentWith
  cases hsc : cats.map (fun c => (c.1, classifyScore c.2 text d)) with
  | nil => simp
  | cons x xs =>
    rw [hsc] at h
    rw [List.map_cons] at h
    simp [h]

/-- When some score is positive, `classify_intent` returns the first-tied
argmax together with the calibrated confidence built from the maximal score
and the second-highest (multiset) score. -/
lemma classifyIntentWith_pos {cats : List (String × IntentPattern)}
    {text : String} {d : ParsedData} {x : String × Nat} {xs : List (String × Nat)}
    (hsc : cats.map (fun c => (c.1, classifyScore c.2 text d)) = x :: xs)
    (h : maxNat (((x :: xs)).map Prod.snd) ≠ 0) :
    classifyIntentWith cats text d =
      ((argmaxFirst x xs).1,
        confidenceFrom (maxNat ((x :: xs).map Prod.snd))
          (secondBest ((x :: xs).map Prod.snd))) := by
  unfold classifyIntentWith
  rw [hsc]
  simp only [h, if_false, reduceCtorEq, ite_false]
  have hbest : (argmaxFirst x xs).2 = maxNat ((x :: xs).map Prod.snd) :=
    argmaxFirst_snd_maxNat x xs
  cases hsort : sortDescBy (fun v => v) ((x :: xs).map Prod.snd) with
  | nil => exact absurd (sortDesc_nil hsort) (by simp)
  | cons a t =>
    cases t with
    | nil =>
      rw [sortDesc_singleton hsort, hbest]
    | cons b r =>
      rw [sortDesc_second hsort, hbest]

/-! ### Confidence calibration lemmas -/

/-- The pre-boost confidence value of `classify_intent`. -/
def baseConfidence (m s : Nat) : ℚ :=
  if s = 0 then min ((m : ℚ) / 12) 1
  else min ((m : ℚ) / 12 + ((m : ℚ) - (s : ℚ)) / 20) 1

lemma confidenceFrom_eq (m s : Nat) :
    confidenceFrom m s =
      if 15 ≤ m then min (baseConfidence m s * (6 / 5)) 1 else baseConfidence m s := rfl

lemma confidenceFrom_eq_specConfidence (m s : Nat) :
    confidenceFrom m s = specConfidence m s := rfl

lemma baseConfidence_nonneg {m s : Nat} (h : s ≤ m) : 0 ≤ baseConfidence m s := by
  unfold baseConfidence
  have hc : (s : ℚ) ≤ (m : ℚ) := by exact_mod_cast h
  have h12 : (0 : ℚ) ≤ (m : ℚ) / 12 := by positivity
  split_ifs
  · exact le_min h12 (by norm_num)
  · refine le_min ?_ (by norm_num)
    have h20 : (0 : ℚ) ≤ ((m : ℚ) - (s : ℚ)) / 20 := by
      apply div_nonneg _ (by norm_num)
      linarith
    linarith

lemma baseConfidence_le_one (m s : Nat) : baseConfidence m s ≤ 1 := by
  unfold baseConfidence
  split_ifs <;> exact min_le_right _ _

lemma baseConfidence_mono {m m' : Nat} (s : Nat) (hm : m ≤ m') :
    baseConfidence m s ≤ baseConfidence m' s := by
  unfold baseConfidence
  have hq : (m : ℚ) ≤ (m' : ℚ) := by exact_mod_cast hm
  split_ifs
  · exact min_le_min (by linarith) le_rfl
  · exact min_le_min (by linarith) le_rfl

lemma confidenceFrom_nonneg {m s : Nat} (h : s ≤ m) : 0 ≤ confidenceFrom m s := by
  rw [confidenceFrom_eq]
  split_ifs
  · exact le_min (mul_nonneg (baseConfidence_nonneg h) (by norm_num)) (by norm_num)
  · exact baseConfidence_nonneg h

lemma confidenceFrom_le_one (m s : Nat) : confidenceFrom m s ≤ 1 := by
  rw [confidenceFrom_eq]
  split_ifs
  · exact min_le_right _ _
  · exact baseConfidence_le_one m s

lemma confidenceFrom_mono {m m' s : Nat} (hs : s ≤ m) (hm : m ≤ m') :
    confidenceFrom m s ≤ confidenceFrom m' s := by
  rw [confidenceFrom_eq, confidenceFrom_eq]
  have hbase := baseConfidence_mono s hm
  have hbase0 : 0 ≤ baseConfidence m' s := baseConfidence_nonneg (le_trans hs hm)
  split_ifs with h1 h2
  · exact min_le_min (mul_le_mul_of_nonneg_right hbase (by norm_num)) le_rfl
  · omega
  · refine le_min ?_ (baseConfidence_le_one m s)
    calc baseConfidence m s ≤ baseConfidence m' s := hbase
    _ ≤ baseConfidence m' s * (6 / 5) := le_mul_of_one_le_right hbase0 (by norm_num)
  · exact hbase

/-! ### Constraint extraction lemmas -/

lemma countP_pos_iff_any {α : Type} (p : α → Bool) (l : List α) :
    (0 < l.countP p) ↔ l.any p = true := by
  simp [List.countP_pos_iff, List.any_eq_true]

lemma applyFlag_time (c : ConstraintSet) :
    applyFlag c "time_sensitive" =
      { c with time_sensitive := true, urgency_level := "high" } := rfl

lemma applyFlag_budget (c : ConstraintSet) :
    applyFlag c "budget_conscious" = { c with budget_conscious := true } := rfl

lemma applyFlag_quality (c : ConstraintSet) :
    applyFlag c "quality_focused" = { c with quality_focused := true } := rfl

lemma applyFlag_convenience (c : ConstraintSet) :
    applyFlag c "convenience" = { c with convenience_focused := true } := rfl

/-- The constraint-family scan, projected to the flag record: each boolean
flag is exactly "some keyword of the family is a substring", urgency is
"high" exactly when the time family triggered, and the three extraction
fields are untouched. -/
lemma constraintFold_fst (tl : String) :
    (constraintKeywords.foldl (constraintStep tl) (initialConstraints, [])).1 =
      { time_sensitive := timeKeywordList.any (fun k => substr k tl)
        budget_conscious := budgetKeywordList.any (fun k => substr k tl)
        quality_focused := qualityKeywordList.any (fun k => substr k tl)
        convenience_focused := convenienceKeywordList.any (fun k => substr k tl)
        urgency_level :=
          if timeKeywordList.any (fun k => substr k tl) then "high" else "normal"
        budget_amount := none
        primary_concern := none
        time_constraint := none } := by
  simp only [constraintKeywords, List.foldl, constraintStep,
    applyFlag_time, applyFlag_budget, applyFlag_quality, applyFlag_convenience]
  split_ifs <;> simp_all [countP_pos_iff_any, initialConstraints] <;>
    · obtain ⟨x, hx, hsx⟩ := ‹∃ x ∈ timeKeywordList, substr x tl = true›
      have hfalse := ‹∀ x ∈ timeKeywordList, substr x tl = false› x hx
      simp_all

/-- The constraint-family scan, projected to the accumulated
(family, score) list: triggered families in definition order with their
keyword-hit counts. -/
lemma constraintFold_snd_gen (tl : String) :
    ∀ (fams : List (String × List String)) (c : ConstraintSet)
      (acc : List (String × Nat)),
      (fams.foldl (constraintStep tl) (c, acc)).2 =
        acc ++ (fams.map
            (fun f => (f.1, f.2.countP (fun k => substr k tl)))).filter
          (fun z => 0 < z.2)
  | [], c, acc => by simp
  | f :: fs, c, acc => by
    rw [List.foldl_cons]
    by_cases h : 0 < f.2.countP (fun k => substr k tl)
    · rw [show constraintStep tl (c, acc) f =
          (applyFlag c f.1, acc ++ [(f.1, f.2.countP (fun k => substr k tl))]) from
          by simp [constraintStep, h]]
      rw [constraintFold_snd_gen tl fs _ _]
      simp [List.filter_cons, h]
    · rw [show constraintStep tl (c, acc) f = (c, acc) from by simp [constraintStep, h]]
      rw [constraintFold_snd_gen tl fs c acc]
      simp [List.filter_cons, h]

lemma constraintFold_snd (text : String) :
    (constraintKeywords.foldl (constraintStep (lowerStr text))
        (initialConstraints, [])).2 = concernScores text := by
  rw [constraintFold_snd_gen]
  simp [concernScores]

/-- Full characterization of `extract_constraints`: every field of the
returned constraint record, as a function of the raw text and the
annotated entities. -/
lemma extractConstraints_eq (d : ParsedData) (text : String) :
    extractConstraints d text =
      { time_sensitive := timeKeywordList.any (fun k => substr k (lowerStr text))
        budget_conscious := budgetKeywordList.any (fun k => substr k (lowerStr text))
        quality_focused := qualityKeywordList.any (fun k => substr k (lowerStr text))
        convenience_focused :=
          convenienceKeywordList.any (fun k => substr k (lowerStr text))
        urgency_level :=
          if timeKeywordList.any (fun k => substr k (lowerStr text)) then "high"
          else "normal"
        budget_amount :=
          ((d.entities.filter (fun e => e.label == "MONEY")).head?).map Entity.text
        primary_concern :=
          match concernScores text with
          | [] => none
          | x :: xs => some (argmaxFirst x xs).1
        time_constraint :=
          ((d.entities.filter
              (fun e => e.label == "TIME" || e.label == "DATE")).head?).map
            Entity.text } := by
  simp only [extractConstraints]
  rw [constraintFold_fst, constraintFold_snd]
  cases hcs : concernScores text <;>
    cases hm : d.entities.filter (fun e => e.label == "MONEY") <;>
      cases ht : d.entities.filter (fun e => e.label == "TIME" || e.label == "DATE") <;>
        simp [setPrimary, setBudget, setTimeC]

lemma secondBest_le_maxNat (l : List Nat) : secondBest l ≤ maxNat l :=
  maxNat_erase_le l (maxNat l)

/-! ### Claim theorems -/

/-- Claim C1: for every raw text and well-formed annotated record, each
category's total score computed by classify_intent equals the sum of the
six weighted signals (+4 per matching action lemma, +3 per matching noun,
at most one +6 phrase bonus via the descending-length scan, +3 per entity
text in the noun set plus +3 per allowlisted entity label, +2 per modifier
substring, +2 per category noun in the text but missing from the tokens). -/
theorem claim_C1_score_decomposition (p : IntentPattern) (text : String)
    (d : ParsedData) : classifyScore p text d = specScore p text d :=
  classifyScore_eq_specScore p text d

/-- Claim C2: whenever some category's score is positive, the confidence
returned by classify_intent equals the specification's calibration formula
applied to the maximal score and the second-highest score. -/
theorem claim_C2_confidence_formula (text : String) (d : ParsedData)
    (h : 0 < maxNat ((scoresOf text d).map Prod.snd)) :
    (classifyIntent text d).2 =
      specConfidence (maxNat ((scoresOf text d).map Prod.snd))
        (secondBest ((scoresOf text d).map Prod.snd)) := by
  cases hlist : scoresOf text d with
  | nil => simp [scoresOf, intentPatterns] at hlist
  | cons x xs =>
    rw [hlist] at h
    have h0 : maxNat ((x :: xs).map Prod.snd) ≠ 0 := by omega
    have hsc : intentPatterns.map (fun c => (c.1, classifyScore c.2 text d)) = x :: xs :=
      hlist
    unfold classifyIntent
    rw [classifyIntentWith_pos hsc h0, confidenceFrom_eq_specConfidence]

/-- Witness for C2 at a concrete positively-scoring input. -/
theorem claim_C2_confidence_formula_witness :
    (classifyIntent "" ⟨[], ["go"], [], []⟩).2 =
      specConfidence (maxNat ((scoresOf "" ⟨[], ["go"], [], []⟩).map Prod.snd))
        (secondBest ((scoresOf "" ⟨[], ["go"], [], []⟩).map Prod.snd)) :=
  claim_C2_confidence_formula "" ⟨[], ["go"], [], []⟩ (by decide)

/-- Claim C3: when every category's score is 0, classify_intent returns
exactly the category "general" with confidence 0.3. -/
theorem claim_C3_zero_floor (text : String) (d : ParsedData)
    (h : ∀ c ∈ intentPatterns, classifyScore c.2 text d = 0) :
    classifyIntent text d = ("general", 3 / 10) := by
  unfold classifyIntent
  apply classifyIntentWith_max_zero
  have hall : ∀ v ∈ (intentPatterns.map
      (fun c => (c.1, classifyScore c.2 text d))).map Prod.snd, v ≤ 0 := by
    intro v hv
    obtain ⟨y, hy, hyv⟩ := List.mem_map.mp hv
    obtain ⟨c, hc, hcy⟩ := List.mem_map.mp hy
    rw [← hyv, ← hcy]
    exact le_of_eq (h c hc)
  have := maxNat_le hall
  omega

/-- Witness for C3 at whitespace-only raw text with an empty annotation. -/
theorem claim_C3_zero_floor_witness :
    (∀ c ∈ intentPatterns, classifyScore c.2 "   " ⟨[], [], [], []⟩ = 0) ∧
      classifyIntent "   " ⟨[], [], [], []⟩ = ("general", 3 / 10) :=
  ⟨by decide, claim_C3_zero_floor "   " ⟨[], [], [], []⟩ (by decide)⟩

/-- Claim C4: for every input, the confidence returned by classify_intent
lies in [0, 1]. -/
theorem claim_C4_confidence_bounds (text : String) (d : ParsedData) :
    0 ≤ (classifyIntent text d).2 ∧ (classifyIntent text d).2 ≤ 1 := by
  unfold classifyIntent
  by_cases h : maxNat ((intentPatterns.map
      (fun c => (c.1, classifyScore c.2 text d))).map Prod.snd) = 0
  · rw [classifyIntentWith_max_zero h]
    norm_num
  · cases hlist : intentPatterns.map (fun c => (c.1, classifyScore c.2 text d)) with
    | nil => simp [intentPatterns] at hlist
    | cons x xs =>
      rw [hlist] at h
      rw [classifyIntentWith_pos hlist h]
      exact ⟨confidenceFrom_nonneg (secondBest_le_maxNat _),
        confidenceFrom_le_one _ _⟩

/-- Claim C5: with a positive maximal score, the winner classify_intent
returns is the first category (in definition order) whose score equals the
maximum; ties therefore resolve deterministically to the first-defined
category. -/
theorem claim_C5_tie_break (text : String) (d : ParsedData) (c : String × Nat)
    (h : 0 < maxNat ((scoresOf text d).map Prod.snd))
    (hfind : (scoresOf text d).find?
        (fun z => z.2 == maxNat ((scoresOf text d).map Prod.snd)) = some c) :
    (classifyIntent text d).1 = c.1 := by
  cases hlist : scoresOf text d with
  | nil => simp [scoresOf, intentPatterns] at hlist
  | cons x xs =>
    rw [hlist] at h hfind
    have h0 : maxNat ((x :: xs).map Prod.snd) ≠ 0 := by omega
    have hsc : intentPatterns.map (fun c => (c.1, classifyScore c.2 text d)) = x :: xs :=
      hlist
    unfold classifyIntent
    rw [classifyIntentWith_pos hsc h0]
    rw [← argmaxFirst_snd_maxNat x xs, find?_argmaxFirst xs x] at hfind
    injection hfind with hh
    rw [hh]

/-- Witness for C5 at a two-way tie ("order" matches both the purchase and
food verb sets with score 4 each): the first-defined of the tied
categories wins. -/
theorem claim_C5_tie_break_witness :
    (classifyIntent "" ⟨[], ["order"], [], []⟩).1 = "purchase" :=
  claim_C5_tie_break "" ⟨[], ["order"], [], []⟩ ("purchase", 4) (by decide) (by decide)

/-- Claim C6: each constraint family's boolean flag is true iff some family
keyword occurs as a substring of the lowercased text, and urgency is "high"
exactly when the time-sensitive family triggered; in particular the text
"Need urgent transport to hospital" triggers time sensitivity and high
urgency for any annotated input. -/
theorem claim_C6_constraint_flags (d : ParsedData) (text : String) :
    ((extractConstraints d text).time_sensitive =
        timeKeywordList.any (fun k => substr k (lowerStr text))) ∧
    ((extractConstraints d text).budget_conscious =
        budgetKeywordList.any (fun k => substr k (lowerStr text))) ∧
    ((extractConstraints d text).quality_focused =
        qualityKeywordList.any (fun k => substr k (lowerStr text))) ∧
    ((extractConstraints d text).convenience_focused =
        convenienceKeywordList.any (fun k => substr k (lowerStr text))) ∧
    ((extractConstraints d text).urgency_level =
        if timeKeywordList.any (fun k => substr k (lowerStr text)) then "high"
        else "normal") ∧
    (extractConstraints d "Need urgent transport to hospital").time_sensitive = true ∧
    (extractConstraints d "Need urgent transport to hospital").urgency_level = "high" := by
  rw [extractConstraints_eq d text,
    extractConstraints_eq d "Need urgent transport to hospital"]
  refine ⟨rfl, rfl, rfl, rfl, rfl, ?_, ?_⟩
  · show timeKeywordList.any
        (fun k => substr k (lowerStr "Need urgent transport to hospital")) = true
    decide
  · show (if timeKeywordList.any
          (fun k => substr k (lowerStr "Need urgent transport to hospital")) = true
        then "high" else "normal") = "high"
    decide

/-- Claim C7: the extracted monetary amount is the verbatim surface text of
the first MONEY-labeled entity (None when there is none), the extracted
temporal string is the surface text of the first TIME- or DATE-labeled
entity (None when there is none), and a fully signal-free input yields the
all-false/None default record. -/
theorem claim_C7_entity_extraction (d : ParsedData) (text : String) :
    ((extractConstraints d text).budget_amount =
        ((d.entities.filter (fun e => e.label == "MONEY")).head?).map Entity.text) ∧
    ((extractConstraints d text).time_constraint =
        ((d.entities.filter
            (fun e => e.label == "TIME" || e.label == "DATE")).head?).map
          Entity.text) ∧
    extractConstraints ⟨[], [], [], []⟩ "" = initialConstraints := by
  rw [extractConstraints_eq d text]
  exact ⟨rfl, rfl, by decide⟩

/-- Claim C8: adding one more matching verb signal (+4), noun signal (+3),
or a matching phrase to a category never decreases the category's score,
and the confidence calibration is monotone in the winning score when the
runner-up score is held fixed. -/
theorem claim_C8_monotonicity :
    (∀ (p : IntentPattern) (text : String) (d : ParsedData) (a : String),
        p.verbs.contains (lowerStr a) = true →
        classifyScore p text ⟨d.tokens, a :: d.actions, d.nouns, d.entities⟩ =
          classifyScore p text d + 4) ∧
    (∀ (p : IntentPattern) (text : String) (d : ParsedData) (n : String),
        p.nouns.contains (lowerStr n) = true →
        classifyScore p text ⟨d.tokens, d.actions, n :: d.nouns, d.entities⟩ =
          classifyScore p text d + 3) ∧
    (∀ (p : IntentPattern) (text : String) (d : ParsedData) (ph : String),
        classifyScore ⟨p.verbs, p.nouns, ph :: p.phrases, p.locations, p.modifiers⟩
            text d ≥ classifyScore p text d) ∧
    (∀ (m m' s : Nat), s ≤ m → m ≤ m' → confidenceFrom m s ≤ confidenceFrom m' s) := by
  refine ⟨?_, ?_, ?_, fun m m' s hs hm => confidenceFrom_mono hs hm⟩
  · intro p text d a ha
    rw [classifyScore_eq_specScore, classifyScore_eq_specScore]
    simp only [specScore, List.countP_cons, ha]
    simp
    ring
  · intro p text d n hn
    rw [classifyScore_eq_specScore, classifyScore_eq_specScore]
    simp only [specScore, List.countP_cons, hn]
    simp
    ring
  · intro p text d ph
    rw [classifyScore_eq_specScore, classifyScore_eq_specScore]
    simp only [specScore]
    have hbonus : (if phraseHit p.phrases (lowerStr text) then 6 else 0) ≤
        (if phraseHit (ph :: p.phrases) (lowerStr text) then 6 else 0) := by
      cases h : phraseHit p.phrases (lowerStr text)
      · simp [h]
      · have h2 : phraseHit (ph :: p.phrases) (lowerStr text) = true := by
          unfold phraseHit at h ⊢
          rw [List.any_cons, h, Bool.or_true]
        rw [h2]
    apply Nat.add_le_add_right
    apply Nat.add_le_add_right
    apply Nat.add_le_add_right
    apply Nat.add_le_add_right
    exact Nat.add_le_add_left hbonus _

/-- Witness for C8 at concrete inputs: one extra matching verb adds 4, one
extra matching noun adds 3, one extra phrase never lowers a score, and a
larger winning score never lowers the confidence. -/
theorem claim_C8_monotonicity_witness :
    classifyScore transportationPattern "" ⟨[], ["go"], [], []⟩ =
        classifyScore transportationPattern "" ⟨[], [], [], []⟩ + 4 ∧
      classifyScore transportationPattern "" ⟨[], [], ["bus"], []⟩ =
        classifyScore transportationPattern "" ⟨[], [], [], []⟩ + 3 ∧
      classifyScore ⟨transportationPattern.verbs, transportationPattern.nouns,
          "by air" :: transportationPattern.phrases, transportationPattern.locations,
          transportationPattern.modifiers⟩ "" ⟨[], [], [], []⟩ ≥
        classifyScore transportationPattern "" ⟨[], [], [], []⟩ ∧
      confidenceFrom 4 0 ≤ confidenceFrom 8 0 :=
  ⟨claim_C8_monotonicity.1 transportationPattern "" ⟨[], [], [], []⟩ "go" (by decide),
   claim_C8_monotonicity.2.1 transportationPattern "" ⟨[], [], [], []⟩ "bus" (by decide),
   claim_C8_monotonicity.2.2.1 transportationPattern "" ⟨[], [], [], []⟩ "by air",
   claim_C8_monotonicity.2.2.2 4 8 0 (by decide) (by decide)⟩

/-- Claim C9: the primary concern is the first triggered constraint family
(in definition order) attaining the highest keyword-hit count, None when
nothing triggered; for the convenience family its value is the string
"convenience" even though the boolean flag is keyed convenience_focused. -/
theorem claim_C9_primary_concern (d : ParsedData) (text : String) :
    ((extractConstraints d text).primary_concern =
        ((concernScores text).find?
            (fun z => z.2 == maxNat ((concernScores text).map Prod.snd))).map
          Prod.fst) ∧
    (extractConstraints d "easy").primary_concern = some "convenience" ∧
    (extractConstraints d "easy").convenience_focused = true := by
  have main : ∀ t : String, (extractConstraints d t).primary_concern =
      ((concernScores t).find?
          (fun z => z.2 == maxNat ((concernScores t).map Prod.snd))).map Prod.fst := by
    intro t
    rw [extractConstraints_eq d t]
    cases hcs : concernScores t with
    | nil => simp
    | cons x xs =>
      rw [← argmaxFirst_snd_maxNat x xs, find?_argmaxFirst xs x]
      simp
  refine ⟨main text, ?_, ?_⟩
  · rw [main "easy"]
    decide
  · rw [extractConstraints_eq d "easy"]
    show convenienceKeywordList.any (fun k => substr k (lowerStr "easy")) = true
    decide

/-- Claim C10: all entity-label tests are exact case-sensitive comparisons:
only "MONEY" selects a monetary amount, only "TIME"/"DATE" a temporal
string, only "GPE"/"LOC"/"FAC" earn transportation's +3 label signal, and a
lowercase label like "money" contributes nothing without raising an error. -/
theorem claim_C10_label_exactness (e : Entity) (text : String)
    (tk ac no : List String) :
    ((extractConstraints ⟨tk, ac, no, [e]⟩ text).budget_amount =
        if e.label = "MONEY" then some e.text else none) ∧
    ((extractConstraints ⟨tk, ac, no, [e]⟩ text).time_constraint =
        if e.label = "TIME" ∨ e.label = "DATE" then some e.text else none) ∧
    (classifyScore transportationPattern text ⟨tk, ac, no, [e]⟩ =
        classifyScore transportationPattern text ⟨tk, ac, no, []⟩ +
          (if transportationPattern.nouns.contains (lowerStr e.text) then 3 else 0) +
          (if e.label = "GPE" ∨ e.label = "LOC" ∨ e.label = "FAC" then 3 else 0)) ∧
    (extractConstraints ⟨[], [], [], [⟨"50000 rupees", "money"⟩]⟩ "x").budget_amount
      = none := by
  refine ⟨?_, ?_, ?_, by decide⟩
  · rw [extractConstraints_eq]
    by_cases h : e.label = "MONEY" <;> simp [h]
  · rw [extractConstraints_eq]
    by_cases h1 : e.label = "TIME" <;> by_cases h2 : e.label = "DATE" <;>
      simp [h1, h2]
  · rw [classifyScore_eq_specScore, classifyScore_eq_specScore]
    simp only [specScore]
    rw [show transportationPattern.locations = some ["GPE", "LOC", "FAC"] from rfl]
    simp only [List.countP_cons, List.countP_nil]
    have hc : (["GPE", "LOC", "FAC"] : List String).contains e.label = true ↔
        (e.label = "GPE" ∨ e.label = "LOC" ∨ e.label = "FAC") := by
      simp
    by_cases hl : e.label = "GPE" ∨ e.label = "LOC" ∨ e.label = "FAC"
    · rw [if_pos hl]
      have hct : (["GPE", "LOC", "FAC"] : List String).contains e.label = true :=
        hc.mpr hl
      rw [hct]
      cases hb : transportationPattern.nouns.contains (lowerStr e.text) <;>
        simp [hb] <;> ring
    · rw [if_neg hl]
      have hcf : (["GPE", "LOC", "FAC"] : List String).contains e.label = false :=
        Bool.eq_false_iff.mpr (fun hcc => hl (hc.mp hcc))
      rw [hcf]
      cases hb : transportationPattern.nouns.contains (lowerStr e.text) <;>
        simp [hb] <;> ring

end Overthinker
